import Mathlib

/-!
Shallow embedding of the Facebook–Gemini webhook server (`src/file.js`)
and proofs about its specified behaviour.

The Express application in `src/file.js` registers, in order:
`express.json()` (line 21), `express.urlencoded` (line 22),
`GET /webhook` (line 35), `POST /webhook` (line 54), `GET /health`
(line 227), the 404 handler (line 242), the error handler (line 246),
and finally `express.json({verify: ...})` capturing `req.rawBody`
(line 253).  Requests traverse this stack in registration order, so the
embedding models the stack explicitly and middleware effects
(body parsing, `req.rawBody`) arise from traversal, not by assumption.

JavaScript values appearing in the request body are modelled by `Json`
(the integer fragment of JSON numbers; the payloads handled by the code
use only strings, arrays and objects).  `undefined` is modelled as
`Option.none` where a value may be absent.  Exceptions thrown by the
JavaScript runtime (property access on `undefined`/`null`,
`for...of` over a non-iterable, `crypto.timingSafeEqual` on buffers of
different lengths) are modelled with `Except JsErr`.
-/

/-- JSON/JavaScript values (integer fragment of JSON numbers). -/
inductive Json where
  | null : Json
  | bool (b : Bool) : Json
  | num (n : Int) : Json
  | str (s : String) : Json
  | arr (elems : List Json) : Json
  | obj (fields : List (String × Json)) : Json
deriving Repr

mutual

/-- Structural equality test for `Json`; the nested list positions force a
mutual recursion (no deriving handler applies to this inductive). -/
def Json.eqb : Json → Json → Bool
  | .bool a, .bool b => a == b
  | .num a, .num b => a == b
  | .null, .null => true
  | .str a, .str b => a == b
  | .obj fa, .obj fb => Json.eqbFields fa fb
  | .arr ea, .arr eb => Json.eqbElems ea eb
  | _, _ => false

def Json.eqbElems : List Json → List Json → Bool
  | a :: xs, b :: ys => Json.eqb a b && Json.eqbElems xs ys
  | [], [] => true
  | _, _ => false

def Json.eqbFields : List (String × Json) → List (String × Json) → Bool
  | f :: fs, g :: gs => f.1 == g.1 && Json.eqb f.2 g.2 && Json.eqbFields fs gs
  | [], [] => true
  | _, _ => false

end

mutual
theorem Json.eqb_eq : ∀ a b : Json, Json.eqb a b = true → a = b
  | .null, .null, _ => rfl
  | .bool a, .bool b, h => by
      simp only [Json.eqb, beq_iff_eq] at h; exact h ▸ rfl
  | .num a, .num b, h => by
      simp only [Json.eqb, beq_iff_eq] at h; exact h ▸ rfl
  | .str a, .str b, h => by
      simp only [Json.eqb, beq_iff_eq] at h; exact h ▸ rfl
  | .arr a, .arr b, h => by
      simp only [Json.eqb] at h
      exact congrArg Json.arr (Json.eqbElems_eq a b h)
  | .obj a, .obj b, h => by
      simp only [Json.eqb] at h
      exact congrArg Json.obj (Json.eqbFields_eq a b h)

theorem Json.eqbElems_eq : ∀ a b : List Json, Json.eqbElems a b = true → a = b
  | [], [], _ => rfl
  | x :: xs, y :: ys, h => by
      simp only [Json.eqbElems, Bool.and_eq_true] at h
      exact congrArg₂ List.cons (Json.eqb_eq x y h.1) (Json.eqbElems_eq xs ys h.2)

theorem Json.eqbFields_eq :
    ∀ a b : List (String × Json), Json.eqbFields a b = true → a = b
  | [], [], _ => rfl
  | (k₁, v₁) :: xs, (k₂, v₂) :: ys, h => by
      simp only [Json.eqbFields, Bool.and_eq_true, beq_iff_eq] at h
      exact congrArg₂ List.cons
        (by rw [show k₁ = k₂ from h.1.1, Json.eqb_eq v₁ v₂ h.1.2])
        (Json.eqbFields_eq xs ys h.2)
end

mutual
theorem Json.eqb_refl : ∀ a : Json, Json.eqb a a = true
  | .null => rfl
  | .bool a => by simp [Json.eqb]
  | .num a => by simp [Json.eqb]
  | .str a => by simp [Json.eqb]
  | .arr a => by simp only [Json.eqb]; exact Json.eqbElems_refl a
  | .obj a => by simp only [Json.eqb]; exact Json.eqbFields_refl a

theorem Json.eqbElems_refl : ∀ a : List Json, Json.eqbElems a a = true
  | [] => rfl
  | x :: xs => by
      simp only [Json.eqbElems, Bool.and_eq_true]
      exact ⟨Json.eqb_refl x, Json.eqbElems_refl xs⟩

theorem Json.eqbFields_refl : ∀ a : List (String × Json), Json.eqbFields a a = true
  | [] => rfl
  | (k, v) :: xs => by
      simp only [Json.eqbFields, Bool.and_eq_true]
      exact ⟨⟨by simp, Json.eqb_refl v⟩, Json.eqbFields_refl xs⟩
end

instance : DecidableEq Json := fun a b =>
  if h : Json.eqb a b = true then .isTrue (Json.eqb_eq a b h)
  else .isFalse (fun he => h (he ▸ Json.eqb_refl a))

/-- Exceptions thrown by the JavaScript runtime / Node `crypto` module. -/
inductive JsErr where
  | rangeError : JsErr
  | typeError (msg : String) : JsErr
deriving Repr

instance : DecidableEq JsErr := fun a b => by
  cases a <;> cases b
  case rangeError.rangeError => exact .isTrue rfl
  case rangeError.typeError m => exact .isFalse (by intro h; cases h)
  case typeError.rangeError m => exact .isFalse (by intro h; cases h)
  case typeError.typeError m₁ m₂ =>
    exact if h : m₁ = m₂ then .isTrue (by rw [h]) else .isFalse (by intro he; cases he; exact h rfl)

/-- JavaScript truthiness of a possibly-`undefined` value. -/
def jsTruthy : Option Json → Bool
  | none => false
  | some .null => false
  | some (.bool b) => b
  | some (.num n) => decide (n ≠ 0)
  | some (.str s) => decide (s ≠ "")
  | some (.arr _) => true
  | some (.obj _) => true

/-- Look up an own property of an object field list (first match; the JSON
parser below keeps keys unique, last duplicate winning, as `JSON.parse` does). -/
def lookupField : List (String × Json) → String → Option Json
  | [], _ => none
  | (k, v) :: fs, key => if k = key then some v else lookupField fs key

/-- JavaScript property access `v[key]`: throws a `TypeError` on `undefined`
and `null`, yields `undefined` for a missing key or a non-object receiver.
The literal keys the code reads (`object`, `entry`, `messaging`, `sender`,
`recipient`, `id`, `message`, `text`, `postback`, `payload`, `quick_reply`)
are not `Object.prototype` members, so own-property lookup is exact here; the
one computed key, `responses[payload]` in `handlePostback`, is modelled
separately with the prototype chain. -/
def jsGetField (v : Option Json) (key : String) : Except JsErr (Option Json) :=
  match v with
  | none => .error (.typeError ("Cannot read properties of undefined (reading " ++ key ++ ")"))
  | some .null => .error (.typeError ("Cannot read properties of null (reading " ++ key ++ ")"))
  | some (.obj fs) => .ok (lookupField fs key)
  | some _ => .ok none

/-- JavaScript `for...of` over a value: arrays iterate their elements,
strings iterate their characters, everything else throws a `TypeError`. -/
def jsIterate (v : Option Json) : Except JsErr (List Json) :=
  match v with
  | some (.arr xs) => .ok xs
  | some (.str s) => .ok (s.data.map fun c => .str (String.mk [c]))
  | _ => .error (.typeError "is not iterable")

mutual

/-- JavaScript `String()` coercion of a defined value. -/
def jsToString : Json → String
  | .null => "null"
  | .bool b => cond b "true" "false"
  | .num n => toString n
  | .str s => s
  | .arr xs => String.intercalate "," (jsToStringList xs)
  | .obj _ => "[object Object]"

def jsToStringList : List Json → List String
  | [] => []
  | .null :: xs => "" :: jsToStringList xs
  | x :: xs => jsToString x :: jsToStringList xs

end

/-- JavaScript `String()` coercion, `undefined` included (used for template
literals and computed property keys). -/
def jsToStringOpt : Option Json → String
  | none => "undefined"
  | some j => jsToString j

/-- The `\x7b` brace characters, used so the grammar is explicit. -/
def lbrace : Char := Char.ofNat 123

def rbrace : Char := Char.ofNat 125

/-- Skip JSON whitespace (space, tab, line feed, carriage return). -/
def skipWs : List Char → List Char
  | c :: cs =>
    if c = ' ' ∨ c = Char.ofNat 9 ∨ c = Char.ofNat 10 ∨ c = Char.ofNat 13
    then skipWs cs else c :: cs
  | [] => []

/-- Value of a hex digit, if any. -/
def hexVal (c : Char) : Option Nat :=
  if '0' ≤ c ∧ c ≤ '9' then some (c.toNat - 48)
  else if 'a' ≤ c ∧ c ≤ 'f' then some (c.toNat - 87)
  else if 'A' ≤ c ∧ c ≤ 'F' then some (c.toNat - 55)
  else none

/-- Parse the body of a JSON string (after the opening quote), handling the
escape sequences of the JSON grammar.  `\uXXXX` is mapped through
`Char.ofNat`, which covers the scalar values the payloads here use. -/
def parseStrGo : Nat → List Char → List Char → Option (List Char × List Char)
  | 0, _, _ => none
  | _, _, [] => none
  | fuel + 1, acc, c :: cs =>
    if c = '"' then some (acc.reverse, cs)
    else if c = '\\' then
      match cs with
      | [] => none
      | e :: cs₂ =>
        if e = '"' then parseStrGo fuel ('"' :: acc) cs₂
        else if e = '\\' then parseStrGo fuel ('\\' :: acc) cs₂
        else if e = '/' then parseStrGo fuel ('/' :: acc) cs₂
        else if e = 'b' then parseStrGo fuel (Char.ofNat 8 :: acc) cs₂
        else if e = 'f' then parseStrGo fuel (Char.ofNat 12 :: acc) cs₂
        else if e = 'n' then parseStrGo fuel (Char.ofNat 10 :: acc) cs₂
        else if e = 'r' then parseStrGo fuel (Char.ofNat 13 :: acc) cs₂
        else if e = 't' then parseStrGo fuel (Char.ofNat 9 :: acc) cs₂
        else if e = 'u' then
          match cs₂ with
          | h₁ :: h₂ :: h₃ :: h₄ :: cs₃ =>
            match hexVal h₁, hexVal h₂, hexVal h₃, hexVal h₄ with
            | some a, some b, some c', some d =>
              parseStrGo fuel (Char.ofNat (a * 4096 + b * 256 + c' * 16 + d) :: acc) cs₃
            | _, _, _, _ => none
          | _ => none
        else none
    else if c.toNat < 32 then none
    else parseStrGo fuel (c :: acc) cs

/-- Parse a JSON integer literal (sign and digits; the payloads the code
handles contain no fractional or exponent parts, which this model rejects). -/
def parseIntLit : List Char → Option (Int × List Char)
  | '-' :: cs =>
    match cs with
    | c :: _ =>
      if c.isDigit then
        (parseDigitsGo cs 0).map fun p => (-(p.1 : Int), p.2)
      else none
    | [] => none
  | cs =>
    match cs with
    | c :: _ =>
      if c.isDigit then (parseDigitsGo cs 0).map fun p => ((p.1 : Int), p.2) else none
    | [] => none
where
  parseDigitsGo : List Char → Nat → Option (Nat × List Char)
  | c :: cs, acc => if c.isDigit then parseDigitsGo cs (acc * 10 + (c.toNat - 48)) else some (acc, c :: cs)
  | [], acc => some (acc, [])

/-- Insert a parsed object member: a duplicate key keeps its first position
but takes the later value, as `JSON.parse` does. -/
def upsertField : List (String × Json) → String → Json → List (String × Json)
  | [], key, v => [(key, v)]
  | (k, w) :: fs, key, v =>
    if k = key then (k, v) :: fs else (k, w) :: upsertField fs key v

mutual

/-- Recursive-descent JSON value parser (fuelled; fuel bounds nesting). -/
def parseVal : Nat → List Char → Option (Json × List Char)
  | 0, _ => none
  | fuel + 1, cs =>
    match skipWs cs with
    | [] => none
    | c :: rest =>
      if c = '"' then
        (parseStrGo (rest.length + 1) [] rest).map fun p => (.str (String.mk p.1), p.2)
      else if c = lbrace then parseObj fuel [] rest
      else if c = '[' then parseArr fuel [] rest
      else if c = 't' then
        match rest with
        | 'r' :: 'u' :: 'e' :: cs' => some (.bool true, cs')
        | _ => none
      else if c = 'f' then
        match rest with
        | 'a' :: 'l' :: 's' :: 'e' :: cs' => some (.bool false, cs')
        | _ => none
      else if c = 'n' then
        match rest with
        | 'u' :: 'l' :: 'l' :: cs' => some (.null, cs')
        | _ => none
      else
        (parseIntLit (c :: rest)).map fun p => (.num p.1, p.2)

/-- Parse object members after the opening brace. -/
def parseObj (fuel : Nat) (acc : List (String × Json)) (cs : List Char) :
    Option (Json × List Char) :=
  match fuel with
  | 0 => none
  | fuel + 1 =>
    match skipWs cs with
    | [] => none
    | c :: rest =>
      if c = rbrace ∧ acc = [] then some (.obj [], rest)
      else if c = '"' then
        match parseStrGo (rest.length + 1) [] rest with
        | none => none
        | some (key, afterKey) =>
          match skipWs afterKey with
          | ':' :: afterColon =>
            match parseVal fuel afterColon with
            | none => none
            | some (v, afterVal) =>
              let acc' := upsertField acc (String.mk key) v
              match skipWs afterVal with
              | ',' :: afterComma => parseObj fuel acc' afterComma
              | d :: afterBrace =>
                if d = rbrace then some (.obj acc', afterBrace) else none
              | [] => none
          | _ => none
      else none

/-- Parse array elements after the opening bracket. -/
def parseArr (fuel : Nat) (acc : List Json) (cs : List Char) :
    Option (Json × List Char) :=
  match fuel with
  | 0 => none
  | fuel + 1 =>
    match skipWs cs with
    | [] => none
    | c :: rest =>
      if c = ']' ∧ acc = [] then some (.arr [], rest)
      else
        match parseVal fuel (c :: rest) with
        | none => none
        | some (v, afterVal) =>
          match skipWs afterVal with
          | ',' :: afterComma => parseArr fuel (acc ++ [v]) afterComma
          | ']' :: afterBracket => some (.arr (acc ++ [v]), afterBracket)
          | _ => none

end

/-- `JSON.parse` on a whole string: one value, only whitespace after it. -/
def parseJson (s : String) : Option Json :=
  match parseVal (s.length + 1) s.data with
  | some (j, rest) => if skipWs rest = [] then some j else none
  | none => none

/-- Escape one character as `JSON.stringify` does. -/
def stringifyEscapeChar (c : Char) : List Char :=
  if c = '"' then ['\\', '"']
  else if c = '\\' then ['\\', '\\']
  else if c = Char.ofNat 8 then ['\\', 'b']
  else if c = Char.ofNat 9 then ['\\', 't']
  else if c = Char.ofNat 10 then ['\\', 'n']
  else if c = Char.ofNat 12 then ['\\', 'f']
  else if c = Char.ofNat 13 then ['\\', 'r']
  else if c.toNat < 32 then
    ['\\', 'u', '0', '0',
     if c.toNat / 16 = 0 then '0' else '1',
     (if c.toNat % 16 < 10 then Char.ofNat (48 + c.toNat % 16)
      else Char.ofNat (87 + c.toNat % 16))]
  else [c]

/-- Quote a string as `JSON.stringify` does. -/
def stringifyQuote (s : String) : String :=
  String.mk ('"' :: s.data.flatMap stringifyEscapeChar ++ ['"'])

mutual

/-- `JSON.stringify` (no indentation), as used at line 213 of `src/file.js`
on the parsed request body. -/
def jsonStringify : Json → String
  | .null => "null"
  | .bool b => cond b "true" "false"
  | .num n => toString n
  | .str s => stringifyQuote s
  | .arr xs => "[" ++ String.intercalate "," (jsonStringifyList xs) ++ "]"
  | .obj fs =>
    String.mk [lbrace] ++ String.intercalate "," (jsonStringifyFields fs) ++ String.mk [rbrace]

def jsonStringifyList : List Json → List String
  | [] => []
  | x :: xs => jsonStringify x :: jsonStringifyList xs

def jsonStringifyFields : List (String × Json) → List String
  | [] => []
  | (k, v) :: fs => (stringifyQuote k ++ ":" ++ jsonStringify v) :: jsonStringifyFields fs

end

/-- UTF-8 encoding of one character (what `Buffer.from(str)` and
`hmac.update(str)` do to each scalar value). -/
def utf8Char (c : Char) : List Nat :=
  let n := c.toNat
  if n < 128 then [n]
  else if n < 2048 then [192 + n / 64, 128 + n % 64]
  else if n < 65536 then [224 + n / 4096, 128 + n / 64 % 64, 128 + n % 64]
  else [240 + n / 262144, 128 + n / 4096 % 64, 128 + n / 64 % 64, 128 + n % 64]

/-- UTF-8 bytes of a string. -/
def utf8Bytes (s : String) : List Nat := s.data.flatMap utf8Char

/-- Truncation to 32 bits. -/
def w32 (n : Nat) : Nat := n % 4294967296

/-- 32-bit right-rotation (inputs are already < 2^32). -/
def rotr32 (x n : Nat) : Nat := x / 2 ^ n + x % 2 ^ n * 2 ^ (32 - n)

def sha256Ch (e f g : Nat) : Nat := (e &&& f) ^^^ ((4294967295 - e) &&& g)

def sha256Maj (a b c : Nat) : Nat := (a &&& b) ^^^ (a &&& c) ^^^ (b &&& c)

def bigSigma0 (a : Nat) : Nat := rotr32 a 2 ^^^ rotr32 a 13 ^^^ rotr32 a 22

def bigSigma1 (e : Nat) : Nat := rotr32 e 6 ^^^ rotr32 e 11 ^^^ rotr32 e 25

def smallSigma0 (x : Nat) : Nat := rotr32 x 7 ^^^ rotr32 x 18 ^^^ x / 2 ^ 3

def smallSigma1 (x : Nat) : Nat := rotr32 x 17 ^^^ rotr32 x 19 ^^^ x / 2 ^ 10

/-- The SHA-256 round constants (decimal). -/
def sha256K : List Nat :=
  [1116352408, 1899447441, 3049323471, 3921009573, 961987163, 1508970993,
   2453635748, 2870763221, 3624381080, 310598401, 607225278, 1426881987,
   1925078388, 2162078206, 2614888103, 3248222580, 3835390401, 4022224774,
   264347078, 604807628, 770255983, 1249150122, 1555081692, 1996064986,
   2554220882, 2821834349, 2952996808, 3210313671, 3336571891, 3584528711,
   113926993, 338241895, 666307205, 773529912, 1294757372, 1396182291,
   1695183700, 1986661051, 2177026350, 2456956037, 2730485921, 2820302411,
   3259730800, 3345764771, 3516065817, 3600352804, 4094571909, 275423344,
   430227734, 506948616, 659060556, 883997877, 958139571, 1322822218,
   1537002063, 1747873779, 1955562222, 2024104815, 2227730452, 2361852424,
   2428436474, 2756734187, 3204031479, 3329325298]

/-- The SHA-256 working state (eight , 32-bit words). -/
structure Sha256State where
  a : Nat
  b : Nat
  c : Nat
  d : Nat
  e : Nat
  f : Nat
  g : Nat
  h : Nat
deriving Repr, DecidableEq

/-- The SHA-256 initial hash value (decimal). -/
def sha256H0 : Sha256State :=
  ⟨1779033703, 3144134277, 1013904242, 2773480762,
   1359893119, 2600822924, 528734635, 1541459225⟩

/-- Big-endian bytes of a 64-bit length. -/
def be64 (n : Nat) : List Nat :=
  [n / 2 ^ 56 % 256, n / 2 ^ 48 % 256, n / 2 ^ 40 % 256, n / 2 ^ 32 % 256,
   n / 2 ^ 24 % 256, n / 2 ^ 16 % 256, n / 2 ^ 8 % 256, n % 256]

/-- Big-endian bytes of a 32-bit word. -/
def be32 (n : Nat) : List Nat := [n / 2 ^ 24 % 256, n / 2 ^ 16 % 256, n / 2 ^ 8 % 256, n % 256]

/-- SHA-256 padding: `0x80`, zeros to 56 mod 64, then the bit length. -/
def sha256Pad (msg : List Nat) : List Nat :=
  msg ++ 128 :: List.replicate ((119 - msg.length % 64) % 64) 0 ++ be64 (msg.length * 8)

def chunks64Go : Nat → List Nat → List (List Nat)
  | 0, _ => []
  | _, [] => []
  | fuel + 1, l => l.take 64 :: chunks64Go fuel (l.drop 64)

/-- Split a byte list into 64-byte chunks. -/
def chunks64 (l : List Nat) : List (List Nat) := chunks64Go l.length l

/-- Big-endian 32-bit words of a chunk. -/
def bytesToWords : List Nat → List Nat
  | a :: b :: c :: d :: rest => (a * 16777216 + b * 65536 + c * 256 + d) :: bytesToWords rest
  | _ => []

/-- Extend a message schedule by one word. -/
def scheduleStep (w : List Nat) : List Nat :=
  w ++ [w32 (smallSigma1 (w.getD (w.length - 2) 0) + w.getD (w.length - 7) 0 +
             smallSigma0 (w.getD (w.length - 15) 0) + w.getD (w.length - 16) 0)]

/-- The 64-word message schedule from the 16 words of a chunk. -/
def fullSchedule (w16 : List Nat) : List Nat := scheduleStep^[48] w16

/-- One SHA-256 compression round. -/
def sha256Round (st : Sha256State) (k w : Nat) : Sha256State :=
  let t1 := w32 (st.h + bigSigma1 st.e + sha256Ch st.e st.f st.g + k + w)
  let t2 := w32 (bigSigma0 st.a + sha256Maj st.a st.b st.c)
  ⟨w32 (t1 + t2), st.a, st.b, st.c, w32 (st.d + t1), st.e, st.f, st.g⟩

/-- Process one 64-byte chunk. -/
def sha256Chunk (st : Sha256State) (chunk : List Nat) : Sha256State :=
  let ws := fullSchedule (bytesToWords chunk)
  let fin := (sha256K.zip ws).foldl (fun s kw => sha256Round s kw.1 kw.2) st
  ⟨w32 (st.a + fin.a), w32 (st.b + fin.b), w32 (st.c + fin.c), w32 (st.d + fin.d),
   w32 (st.e + fin.e), w32 (st.f + fin.f), w32 (st.g + fin.g), w32 (st.h + fin.h)⟩

/-- SHA-256 of a byte list, as a 32-byte list. -/
def sha256 (msg : List Nat) : List Nat :=
  let fin := (chunks64 (sha256Pad msg)).foldl sha256Chunk sha256H0
  be32 fin.a ++ be32 fin.b ++ be32 fin.c ++ be32 fin.d ++
  be32 fin.e ++ be32 fin.f ++ be32 fin.g ++ be32 fin.h

/-- HMAC-SHA-256 (`crypto.createHmac('sha256', secret)`). -/
def hmacSha256 (key msg : List Nat) : List Nat :=
  let k0 := if 64 < key.length then sha256 key else key
  let kpad := k0 ++ List.replicate (64 - k0.length) 0
  sha256 ((kpad.map fun b => b ^^^ 92) ++ sha256 ((kpad.map fun b => b ^^^ 54) ++ msg))

/-- Lowercase hex digit. -/
def hexDigit : Nat → Char
  | 0 => '0' | 1 => '1' | 2 => '2' | 3 => '3' | 4 => '4'
  | 5 => '5' | 6 => '6' | 7 => '7' | 8 => '8' | 9 => '9'
  | 10 => 'a' | 11 => 'b' | 12 => 'c' | 13 => 'd' | 14 => 'e' | 15 => 'f'
  | _ => '0'

/-- Two hex digits of a byte. -/
def hexByte (b : Nat) : List Char := [hexDigit (b / 16 % 16), hexDigit (b % 16)]

/-- Lowercase hex encoding of a byte list (`hmac.digest('hex')`). -/
def hexOfBytes (bs : List Nat) : String := String.mk (bs.flatMap hexByte)

/-- `crypto.timingSafeEqual`: throws a `RangeError` when the two buffers
have different byte lengths, otherwise compares them. -/
def timingSafeEqual (a b : List Nat) : Except JsErr Bool :=
  if a.length = b.length then .ok (decide (a = b)) else .error .rangeError

/-- Values the code passes to `sendMessageToFacebook` as message text: either
a string, or (through `responses[payload]`) a function value inherited from
`Object.prototype`. -/
inductive JsVal where
  | str (s : String) : JsVal
  | protoFn (name : String) : JsVal
deriving DecidableEq, Repr

/-- JavaScript truthiness of a `JsVal` (functions are truthy). -/
def jsValTruthy : JsVal → Bool
  | .str s => decide (s ≠ "")
  | .protoFn _ => true

/-- Outbound effects relevant to the claims: a Gemini generation request, a
Graph-API send, and the quick-reply log line of line 121 of `src/file.js`
(other log lines carry no claim content and are not traced). -/
inductive Call where
  | gemini (prompt : String) : Call
  | fbPost (recipientId : Option Json) (text : JsVal) : Call
  | logQuickReply (payload : Option Json) : Call
deriving DecidableEq, Repr

/-- The environment configuration of lines 11–14 (each possibly unset). -/
structure Config where
  GEMINI_API_KEY : Option String
  FACEBOOK_VERIFY_TOKEN : Option String
  FACEBOOK_PAGE_ACCESS_TOKEN : Option String
  FACEBOOK_APP_SECRET : Option String
deriving DecidableEq, Repr

/-- Behaviour of the black-box Gemini API for a given prompt: the generated
text, or the exception the `try` of lines 131–147 observes. -/
def GeminiApi : Type := String → Except JsErr String

/-- Behaviour of the black-box `axios.post` to the Graph API: a status code,
or the exception the `try` of lines 178–195 observes. -/
def AxiosPost : Type := Option Json → JsVal → Except JsErr Nat

/-- `sendMessageToFacebook` (lines 174–199): a single `axios.post`; on a 200
status a success is logged; any failure is caught at lines 196–198, logged
and swallowed.  Exactly one send attempt happens on every path and no error
ever leaves the function. -/
def sendMessageToFacebook (axiosPost : AxiosPost)
    (recipientId : Option Json) (messageText : JsVal) : List Call × Option JsErr :=
  match axiosPost recipientId messageText with
  | .ok _status => ([.fbPost recipientId messageText], none)
  | .error _e => ([.fbPost recipientId messageText], none)

/-- The fallback string of line 150. -/
def geminiApology : String :=
  "Thank you for your message. I\x27m having technical difficulties. Please try again later."

/-- The prompt template of lines 134–140. -/
def geminiPrompt (userMessage : String) : String :=
  "You are a helpful customer service assistant for a Facebook business page.\n\nUser message: \"" ++
  userMessage ++
  "\"\n\nPlease provide a friendly, concise response (max 500 characters). \nIf it\x27s a question, answer helpfully. If it\x27s a complaint, empathize and offer solutions.\nAlways be professional and courteous."

/-- JavaScript whitespace stripped by `String.prototype.trim`. -/
def jsWhitespace (c : Char) : Bool :=
  c = ' ' ∨ c = Char.ofNat 9 ∨ c = Char.ofNat 10 ∨ c = Char.ofNat 11 ∨
    c = Char.ofNat 12 ∨ c = Char.ofNat 13

/-- `text.trim()` of line 144. -/
def jsTrim (s : String) : String :=
  String.mk (((s.data.dropWhile jsWhitespace).reverse.dropWhile jsWhitespace).reverse)

/-- `generateResponseWithGemini` (lines 127–152): builds the prompt, calls
the API inside `try`, returns the trimmed response text; the `catch` of
lines 148–151 turns any failure into the static apology string. -/
def generateResponseWithGemini (geminiApi : GeminiApi)
    (userMessage : Option Json) : String × List Call :=
  match geminiApi (geminiPrompt (jsToStringOpt userMessage)) with
  | .ok text => (jsTrim text, [.gemini (geminiPrompt (jsToStringOpt userMessage))])
  | .error _e => (geminiApology, [.gemini (geminiPrompt (jsToStringOpt userMessage))])

/-- The property names every object literal inherits from
`Object.prototype`. -/
def objectProtoProps : List String :=
  ["constructor", "hasOwnProperty", "isPrototypeOf", "propertyIsEnumerable",
   "toLocaleString", "toString", "valueOf",
   "__defineGetter__", "__defineSetter__", "__lookupGetter__", "__lookupSetter__",
   "__proto__"]

/-- `responses[payload]` on the object literal of lines 162–166.  JavaScript
property lookup consults own properties first and then the prototype chain,
so a payload naming an `Object.prototype` member (for example `"toString"`)
yields the inherited function value, which is truthy and not a string. -/
def responsesLookup (key : String) : Option JsVal :=
  if key = "GET_STARTED" then some (.str "Welcome! 👋 How can I help you today?")
  else if key = "MENU_INFO" then some (.str "Here\x27s our business information...")
  else if key = "MENU_SUPPORT" then
    some (.str "Select an issue: 1) Billing 2) Technical 3) General")
  else if key ∈ objectProtoProps then some (.protoFn key)
  else none

/-- The generic fallback of line 168. -/
def postbackFallback : String := "I didn\x27t understand that action."

/-- `handlePostback` (lines 156–170): `responses[payload] || fallback`, then
one delivery via `sendMessageToFacebook`. -/
def handlePostback (axiosPost : AxiosPost)
    (senderId : Option Json) (payload : Option Json) : List Call × Option JsErr :=
  let response : JsVal :=
    match responsesLookup (jsToStringOpt payload) with
    | some v => if jsValTruthy v then v else .str postbackFallback
    | none => .str postbackFallback
  sendMessageToFacebook axiosPost senderId response

/-- `processMessage` (lines 86–123).  Reads `event.sender.id` and
`event.recipient.id` first (lines 90–91), then dispatches:
`if (event.message)` (line 94) handles a truthy `message.text` through
Gemini and delivery; `else if (event.postback)` (line 110) goes to
`handlePostback`; `else if (event.message && event.message.quick_reply)`
(line 119) would only log — its guard repeats `event.message`, which is
falsy on every path that reaches it.  Returns the traced calls and the
exception the function throws, if any. -/
def processMessage (geminiApi : GeminiApi) (axiosPost : AxiosPost)
    (event : Json) : List Call × Option JsErr :=
  match jsGetField (some event) "sender" with
  | .error e => ([], some e)
  | .ok sender =>
  match jsGetField sender "id" with
  | .error e => ([], some e)
  | .ok senderId =>
  match jsGetField (some event) "recipient" with
  | .error e => ([], some e)
  | .ok recipient =>
  match jsGetField recipient "id" with
  | .error e => ([], some e)
  | .ok _recipientId =>
  match jsGetField (some event) "message" with
  | .error e => ([], some e)
  | .ok message =>
  if jsTruthy message then
    match jsGetField message "text" with
    | .error e => ([], some e)
    | .ok userMessage =>
      if jsTruthy userMessage then
        let gen := generateResponseWithGemini geminiApi userMessage
        let send := sendMessageToFacebook axiosPost senderId (.str gen.1)
        (gen.2 ++ send.1, send.2)
      else ([], none)
  else
    match jsGetField (some event) "postback" with
    | .error e => ([], some e)
    | .ok postback =>
    if jsTruthy postback then
      match jsGetField postback "payload" with
      | .error e => ([], some e)
      | .ok payload => handlePostback axiosPost senderId payload
    else
      if jsTruthy message then
        match jsGetField message "quick_reply" with
        | .error e => ([], some e)
        | .ok quickReply =>
          if jsTruthy quickReply then
            match jsGetField quickReply "payload" with
            | .error e => ([], some e)
            | .ok quickReplyPayload => ([.logQuickReply quickReplyPayload], none)
          else ([], none)
      else ([], none)

/-- The signature header value the code computes for a body string. -/
def expectedSignature (secret bodyStr : String) : String :=
  "sha256=" ++ hexOfBytes (hmacSha256 (utf8Bytes secret) (utf8Bytes bodyStr))

/-- `verifyRequestSignature` (lines 203–223).  A missing or empty header is
falsy and returns `false` (lines 209–211).  Line 213 takes
`req.rawBody || JSON.stringify(req.body)`; `crypto.createHmac` throws when
the secret is unset, `hmac.update` throws when the body is `undefined`, and
`crypto.timingSafeEqual` throws when the two buffers differ in length. -/
def verifyRequestSignature (appSecret : Option String) (xHubSignature : Option String)
    (rawBody : Option String) (body : Option Json) : Except JsErr Bool :=
  match xHubSignature with
  | none => .ok false
  | some sig =>
    if sig = "" then .ok false
    else
      let bodyStr : Option String :=
        match rawBody with
        | some rb => if rb = "" then body.map jsonStringify else some rb
        | none => body.map jsonStringify
      match appSecret with
      | none => .error (.typeError "The key argument must be of type string")
      | some secret =>
        match bodyStr with
        | none => .error (.typeError "The data argument must be of type string")
        | some bs => timingSafeEqual (utf8Bytes sig) (utf8Bytes (expectedSignature secret bs))

/-- An inbound HTTP request: method, path, the raw body bytes exactly as
received (as a string of scalar values), whether the `Content-Type` is
`application/json`, and the (lower-cased) headers and query parameters. -/
structure HttpRequest where
  method : String
  path : String
  rawBytes : String
  contentTypeJson : Bool
  headers : List (String × String)
  query : List (String × String)
deriving DecidableEq, Repr

def headerLookup (req : HttpRequest) (name : String) : Option String :=
  req.headers.lookup name

def queryLookup (req : HttpRequest) (name : String) : Option String :=
  req.query.lookup name

/-- A written HTTP response; `res.send(undefined)` sends an empty body,
modelled as `none`. -/
structure HttpResponse where
  status : Nat
  body : Option String
deriving DecidableEq, Repr

/-- Result of handling one request. -/
inductive Outcome where
  /-- A response was written, after the traced outbound calls. -/
  | responded (resp : HttpResponse) (calls : List Call) : Outcome
  /-- The `async` route handler rejected; Express 4 installs no rejection
  handler, so no response is ever written for the request. -/
  | noResponse (err : JsErr) (calls : List Call) : Outcome
  /-- The stack was exhausted without a response (unreachable: the 404
  handler answers everything that reaches it). -/
  | hang : Outcome
deriving DecidableEq, Repr

/-- `GET /webhook` (lines 35–50): echo `hub.challenge` with 200 when
`hub.verify_token` strict-equals `FACEBOOK_VERIFY_TOKEN` (`undefined`
equals `undefined`), else 403. -/
def getWebhookHandler (verifyTokenCfg : Option String) (req : HttpRequest) : HttpResponse :=
  let verifyToken := queryLookup req "hub.verify_token"
  let challenge := queryLookup req "hub.challenge"
  if verifyToken = verifyTokenCfg then ⟨200, challenge⟩
  else ⟨403, some "Invalid verification token"⟩

/-- The loop of lines 71–77: each messaging event runs inside
`try { await processMessage } catch { log }`, so a throwing event
contributes its calls made before the throw and processing continues with
its siblings. -/
def runMessagingEvents (geminiApi : GeminiApi) (axiosPost : AxiosPost) :
    List Json → List Call
  | [] => []
  | ev :: rest =>
    (processMessage geminiApi axiosPost ev).1 ++ runMessagingEvents geminiApi axiosPost rest

/-- The loop of lines 70–78 over `body.entry`: for each entry,
`entry.messaging` is read and iterated *outside* any `try`, so a failure
there escapes the handler; events inside an entry are protected
individually. -/
def runEntries (geminiApi : GeminiApi) (axiosPost : AxiosPost) :
    List Json → List Call × Option JsErr
  | [] => ([], none)
  | entry :: rest =>
    match jsGetField (some entry) "messaging" with
    | .error e => ([], some e)
    | .ok messaging =>
    match jsIterate messaging with
    | .error e => ([], some e)
    | .ok evs =>
      let calls := runMessagingEvents geminiApi axiosPost evs
      let tail := runEntries geminiApi axiosPost rest
      (calls ++ tail.1, tail.2)

/-- Lines 65–81 of the `POST /webhook` handler, after the signature gate:
for a `page` payload iterate entries and events, then respond `200 OK`
(line 81); other payloads go straight to `200 OK`. -/
def handleVerifiedBody (geminiApi : GeminiApi) (axiosPost : AxiosPost)
    (parsedBody : Option Json) : List Call × Except JsErr HttpResponse :=
  match jsGetField parsedBody "object" with
  | .error e => ([], .error e)
  | .ok objectField =>
    if objectField = some (.str "page") then
      match jsGetField parsedBody "entry" with
      | .error e => ([], .error e)
      | .ok entryField =>
      match jsIterate entryField with
      | .error e => ([], .error e)
      | .ok entries =>
        let r := runEntries geminiApi axiosPost entries
        match r.2 with
        | none => (r.1, .ok ⟨200, some "OK"⟩)
        | some e => (r.1, .error e)
    else ([], .ok ⟨200, some "OK"⟩)

/-- `POST /webhook` (lines 54–82): reject with 403 when
`verifyRequestSignature` returns false; when it throws, the `async` handler
rejects.  Otherwise continue with `handleVerifiedBody`.  Returns the traced
calls together with the response or the escaped exception. -/
def postWebhookHandler (appSecret : Option String) (geminiApi : GeminiApi)
    (axiosPost : AxiosPost) (req : HttpRequest) (rawBodyProp : Option String)
    (parsedBody : Option Json) : List Call × Except JsErr HttpResponse :=
  match verifyRequestSignature appSecret (headerLookup req "x-hub-signature-256")
      rawBodyProp parsedBody with
  | .error e => ([], .error e)
  | .ok false => ([], .ok ⟨403, some "Unauthorized"⟩)
  | .ok true => handleVerifiedBody geminiApi axiosPost parsedBody

/-- `express.json` body parsing: only `application/json` requests with a
body are parsed, and `strict` mode (the default) admits only a top-level
object or array. -/
def expressJsonParse (raw : String) : Option Json :=
  match parseJson raw with
  | some (.obj fs) => some (.obj fs)
  | some (.arr xs) => some (.arr xs)
  | _ => none

/-- The response of the error-handling middleware of lines 246–249 (it
receives body-parse failures, the only `next(err)` source in this app). -/
def errorHandlerResponse : HttpResponse :=
  ⟨500, some "\x7b\"error\":\"Internal server error\"\x7d"⟩

/-- The middleware/route stack of the app, in registration order (see the
module header): the raw-body-capturing `express.json({verify})` of line 253
comes after every route and the 404 handler. -/
inductive StackEntry where
  | expressJsonPlain : StackEntry
  | expressUrlencoded : StackEntry
  | getWebhookRoute : StackEntry
  | postWebhookRoute : StackEntry
  | healthRoute : StackEntry
  | notFoundHandler : StackEntry
  | errorHandler : StackEntry
  | expressJsonVerify : StackEntry
deriving DecidableEq, Repr

def appStack : List StackEntry :=
  [.expressJsonPlain, .expressUrlencoded, .getWebhookRoute, .postWebhookRoute,
   .healthRoute, .notFoundHandler, .errorHandler, .expressJsonVerify]

/-- Traverse the stack in order, threading `req.body` and `req.rawBody`.
A route that matches writes its response and ends the traversal; the
`verify` callback of the line-253 middleware sets `req.rawBody` only if
that middleware is reached with the body still unparsed. -/
def processStack (cfg : Config) (geminiApi : GeminiApi) (axiosPost : AxiosPost)
    (req : HttpRequest) :
    List StackEntry → Option Json → Option String → Outcome
  | [], _, _ => .hang
  | .expressJsonPlain :: rest, body, raw =>
    if req.contentTypeJson ∧ req.rawBytes ≠ "" ∧ body = none then
      match expressJsonParse req.rawBytes with
      | some j => processStack cfg geminiApi axiosPost req rest (some j) raw
      | none => .responded errorHandlerResponse []
    else processStack cfg geminiApi axiosPost req rest body raw
  | .expressUrlencoded :: rest, body, raw =>
    processStack cfg geminiApi axiosPost req rest body raw
  | .getWebhookRoute :: rest, body, raw =>
    if req.method = "GET" ∧ req.path = "/webhook" then
      .responded (getWebhookHandler cfg.FACEBOOK_VERIFY_TOKEN req) []
    else processStack cfg geminiApi axiosPost req rest body raw
  | .postWebhookRoute :: rest, body, raw =>
    if req.method = "POST" ∧ req.path = "/webhook" then
      match postWebhookHandler cfg.FACEBOOK_APP_SECRET geminiApi axiosPost req raw body with
      | (calls, .ok resp) => .responded resp calls
      | (calls, .error e) => .noResponse e calls
    else processStack cfg geminiApi axiosPost req rest body raw
  | .healthRoute :: rest, body, raw =>
    if req.method = "GET" ∧ req.path = "/health" then
      .responded ⟨200, none⟩ []
    else processStack cfg geminiApi axiosPost req rest body raw
  | .notFoundHandler :: _, _, _ =>
    .responded ⟨404, some "\x7b\"error\":\"Endpoint not found\"\x7d"⟩ []
  | .errorHandler :: rest, body, raw =>
    processStack cfg geminiApi axiosPost req rest body raw
  | .expressJsonVerify :: rest, body, raw =>
    if req.contentTypeJson ∧ req.rawBytes ≠ "" ∧ body = none then
      match expressJsonParse req.rawBytes with
      | some j => processStack cfg geminiApi axiosPost req rest (some j) (some req.rawBytes)
      | none => .responded errorHandlerResponse []
    else processStack cfg geminiApi axiosPost req rest body raw

/-- Handle one request against the full application stack. -/
def handle (cfg : Config) (geminiApi : GeminiApi) (axiosPost : AxiosPost)
    (req : HttpRequest) : Outcome :=
  processStack cfg geminiApi axiosPost req appStack none none

/-- A `POST /webhook` request with the given raw body bytes and optional
`x-hub-signature-256` header. -/
def mkPost (raw : String) (hdr : Option String) : HttpRequest :=
  ⟨"POST", "/webhook", raw, true,
   match hdr with | some s => [("x-hub-signature-256", s)] | none => [], []⟩

/-- A `GET /webhook` request with the given query parameters. -/
def mkGet (qs : List (String × String)) : HttpRequest :=
  ⟨"GET", "/webhook", "", false, [], qs⟩

/-- Sample behaviour of the Gemini black box: answers every prompt. -/
def geminiOk : GeminiApi := fun _ => .ok "Hello!"

/-- Sample behaviour of the Gemini black box: every call fails. -/
def geminiFail : GeminiApi := fun _ => .error (.typeError "Gemini API error")

/-- Sample behaviour of the Graph-API black box: every send succeeds. -/
def axiosOk : AxiosPost := fun _ _ => .ok 200

/-- A canonical messaging event carrying a text message. -/
def textEvent (u p t : String) : Json :=
  .obj [("sender", .obj [("id", .str u)]), ("recipient", .obj [("id", .str p)]),
        ("message", .obj [("text", .str t)])]

/-- A canonical page-style webhook body: one messaging list per entry. -/
def pageBody (entriesEvs : List (List Json)) : Json :=
  .obj [("object", .str "page"),
        ("entry", .arr (entriesEvs.map fun evs => .obj [("messaging", .arr evs)]))]

/-- A messaging event whose message carries both text and a quick reply, as
the platform sends for a tapped quick-reply button. -/
def quickReplyEvent : Json :=
  .obj [("sender", .obj [("id", .str "u1")]), ("recipient", .obj [("id", .str "p1")]),
        ("message", .obj [("text", .str "Hi"),
                          ("quick_reply", .obj [("payload", .str "QR_PAYLOAD")])])]

/-- The postback payloads with own entries in `responses` (lines 162–166). -/
def knownPayloads : List String := ["GET_STARTED", "MENU_INFO", "MENU_SUPPORT"]

/-- Concrete fixtures for the closed evaluations below. -/
def sampleSecret : String := "app-secret"

def rawBodyA : String := "\x7b\"a\": \"b\"\x7d"

/-- `rawBodyA` with the byte at index 5 changed from space (0x20) to tab
(0x09): a one-byte alteration that parses to the same JavaScript object. -/
def rawBodyATab : String := "\x7b\"a\":\t\"b\"\x7d"

def bodyA : Json := .obj [("a", .str "b")]

def rawPageNoMessaging : String := "\x7b\"object\": \"page\", \"entry\": [\x7b\x7d]\x7d"

def pageNoMessaging : Json := .obj [("object", .str "page"), ("entry", .arr [.obj []])]

def sampleConfig : Config := ⟨none, none, none, some sampleSecret⟩

/-- Raw bytes of a page body with one entry whose messaging list holds one
malformed event (`\x7b\x7d`) followed by one well-formed text event. -/
def rawPageTwoEvents : String :=
  "\x7b\"object\":\"page\",\"entry\":[\x7b\"messaging\":[\x7b\x7d,\x7b\"sender\":\x7b\"id\":\"u1\"\x7d,\"recipient\":\x7b\"id\":\"p1\"\x7d,\"message\":\x7b\"text\":\"Hi\"\x7d\x7d]\x7d]\x7d"

/-- Raw bytes of a page body with a single well-formed text-message event. -/
def rawPageOneText : String :=
  "\x7b\"object\":\"page\",\"entry\":[\x7b\"messaging\":[\x7b\"sender\":\x7b\"id\":\"u1\"\x7d,\"recipient\":\x7b\"id\":\"p1\"\x7d,\"message\":\x7b\"text\":\"Hi\"\x7d\x7d]\x7d]\x7d"

/-! ## Helper lemmas -/

theorem timingSafeEqual_self (a : List Nat) : timingSafeEqual a a = .ok true := by
  simp [timingSafeEqual]

theorem sha256_length (msg : List Nat) : (sha256 msg).length = 32 := by
  simp [sha256, be32]

theorem hmacSha256_length (key msg : List Nat) : (hmacSha256 key msg).length = 32 := by
  simp only [hmacSha256]
  exact sha256_length _

theorem hexDigit_ascii (n : Nat) : (hexDigit n).toNat < 128 := by
  unfold hexDigit; split <;> decide

theorem flatMap_hexByte_length (bs : List Nat) :
    (bs.flatMap hexByte).length = 2 * bs.length := by
  induction bs with
  | nil => simp
  | cons b bs ih => simp [List.flatMap_cons, hexByte, ih]; omega

theorem flatMap_hexByte_ascii (bs : List Nat) :
    ∀ c ∈ bs.flatMap hexByte, c.toNat < 128 := by
  intro c hc
  rw [List.mem_flatMap] at hc
  obtain ⟨b, _, hcb⟩ := hc
  simp only [hexByte, List.mem_cons, List.not_mem_nil, or_false] at hcb
  rcases hcb with h | h <;> exact h ▸ hexDigit_ascii _

theorem utf8Char_ascii (c : Char) (h : c.toNat < 128) : utf8Char c = [c.toNat] := by
  simp [utf8Char, h]

theorem flatMap_utf8_ascii (l : List Char) (h : ∀ c ∈ l, c.toNat < 128) :
    l.flatMap utf8Char = l.map Char.toNat := by
  induction l with
  | nil => simp
  | cons c cs ih =>
    rw [List.flatMap_cons, utf8Char_ascii c (h c (by simp)), List.map_cons]
    simp [ih fun x hx => h x (by simp [hx])]

theorem expectedSignature_data (s b : String) :
    (expectedSignature s b).data =
      's' :: 'h' :: 'a' :: '2' :: '5' :: '6' :: '=' ::
        (hmacSha256 (utf8Bytes s) (utf8Bytes b)).flatMap hexByte := by
  show (("sha256=" : String) ++ hexOfBytes _).data = _
  rw [String.data_append]
  rfl

theorem expectedSignature_ne_empty (s b : String) : expectedSignature s b ≠ "" := by
  intro h
  have h2 := congrArg String.data h
  rw [expectedSignature_data] at h2
  simp at h2

theorem utf8Bytes_expectedSignature (s b : String) :
    utf8Bytes (expectedSignature s b) =
      115 :: ('h' :: 'a' :: '2' :: '5' :: '6' :: '=' ::
        (hmacSha256 (utf8Bytes s) (utf8Bytes b)).flatMap hexByte).flatMap utf8Char := by
  show (expectedSignature s b).data.flatMap utf8Char = _
  rw [expectedSignature_data, List.flatMap_cons, utf8Char_ascii 's' (by decide)]
  rfl

theorem utf8Bytes_expectedSignature_length (s b : String) :
    (utf8Bytes (expectedSignature s b)).length = 71 := by
  show ((expectedSignature s b).data.flatMap utf8Char).length = 71
  rw [expectedSignature_data, flatMap_utf8_ascii]
  · rw [List.length_map]
    simp only [List.length_cons]
    rw [flatMap_hexByte_length, hmacSha256_length]
  · intro c hc
    simp only [List.mem_cons] at hc
    rcases hc with rfl | rfl | rfl | rfl | rfl | rfl | rfl | hmem
    all_goals first
      | decide
      | exact flatMap_hexByte_ascii _ c hmem

theorem String.mk_cons_ne_empty (c : Char) (l : List Char) : String.mk (c :: l) ≠ "" := by
  intro h
  cases congrArg String.data h

theorem verifyRequestSignature_noHeader (sec : Option String) (rb : Option String)
    (b : Option Json) : verifyRequestSignature sec none rb b = .ok false := rfl

theorem verifyRequestSignature_emptyHeader (sec : Option String) (rb : Option String)
    (b : Option Json) : verifyRequestSignature sec (some "") rb b = .ok false := by
  simp [verifyRequestSignature]

theorem verifyRequestSignature_self (secret : String) (body : Json) :
    verifyRequestSignature (some secret)
      (some (expectedSignature secret (jsonStringify body))) none (some body) = .ok true := by
  simp [verifyRequestSignature, expectedSignature_ne_empty, timingSafeEqual_self]

theorem verifyRequestSignature_mismatch (secret s : String) (body : Json)
    (hne : s ≠ "")
    (hl : (utf8Bytes s).length = (utf8Bytes (expectedSignature secret (jsonStringify body))).length)
    (hb : utf8Bytes s ≠ utf8Bytes (expectedSignature secret (jsonStringify body))) :
    verifyRequestSignature (some secret) (some s) none (some body) = .ok false := by
  simp [verifyRequestSignature, hne, timingSafeEqual, hl, hb]

theorem verifyRequestSignature_lengthDiffer (secret s : String) (body : Json)
    (hne : s ≠ "")
    (hl : (utf8Bytes s).length ≠ (utf8Bytes (expectedSignature secret (jsonStringify body))).length) :
    verifyRequestSignature (some secret) (some s) none (some body) = .error .rangeError := by
  simp [verifyRequestSignature, hne, timingSafeEqual, hl]

/-- Flipping the first character of the expected signature header to `X`
yields a header of the same byte length that the comparison rejects. -/
theorem flippedHeader_facts (s b : String) :
    String.mk ('X' :: (expectedSignature s b).data.tail) ≠ "" ∧
    (utf8Bytes (String.mk ('X' :: (expectedSignature s b).data.tail))).length =
      (utf8Bytes (expectedSignature s b)).length ∧
    utf8Bytes (String.mk ('X' :: (expectedSignature s b).data.tail)) ≠
      utf8Bytes (expectedSignature s b) := by
  refine ⟨String.mk_cons_ne_empty _ _, ?_, ?_⟩
  · show (('X' :: (expectedSignature s b).data.tail).flatMap utf8Char).length =
      ((expectedSignature s b).data.flatMap utf8Char).length
    rw [expectedSignature_data]
    rfl
  · show ('X' :: (expectedSignature s b).data.tail).flatMap utf8Char ≠
      (expectedSignature s b).data.flatMap utf8Char
    rw [expectedSignature_data]
    intro h
    rw [List.flatMap_cons, List.flatMap_cons, utf8Char_ascii 'X' (by decide),
      utf8Char_ascii 's' (by decide)] at h
    simp at h

theorem expressJsonParse_empty : expressJsonParse "" = none := rfl

theorem expressJsonParse_shape (raw : String) (j : Json)
    (h : expressJsonParse raw = some j) :
    (∃ fs, j = .obj fs) ∨ (∃ xs, j = .arr xs) := by
  unfold expressJsonParse at h
  split at h
  · exact .inl ⟨_, (Option.some.inj h).symm⟩
  · exact .inr ⟨_, (Option.some.inj h).symm⟩
  · cases h

theorem headerLookup_mkPost (raw s : String) :
    headerLookup (mkPost raw (some s)) "x-hub-signature-256" = some s := by
  simp [headerLookup, mkPost, List.lookup]

theorem headerLookup_mkPost_none (raw : String) :
    headerLookup (mkPost raw none) "x-hub-signature-256" = none := rfl

/-- Traversing the stack with a parseable `POST /webhook` request: the first
`express.json` parses the body, the route handler answers, and in particular
the raw-body middleware of line 253 is never reached, so `req.rawBody` is
`undefined` inside the handler. -/
theorem handle_mkPost (cfg : Config) (gem : GeminiApi) (ax : AxiosPost)
    (raw : String) (hdr : Option String) (body : Json)
    (hparse : expressJsonParse raw = some body) :
    handle cfg gem ax (mkPost raw hdr) =
      match postWebhookHandler cfg.FACEBOOK_APP_SECRET gem ax (mkPost raw hdr) none (some body) with
      | (calls, .ok resp) => .responded resp calls
      | (calls, .error e) => .noResponse e calls := by
  have hne : raw ≠ "" := by
    intro h
    rw [h, expressJsonParse_empty] at hparse
    cases hparse
  simp [handle, appStack, processStack, mkPost, hparse, hne]

theorem sendMessageToFacebook_spec (ax : AxiosPost) (r : Option Json) (t : JsVal) :
    sendMessageToFacebook ax r t = ([.fbPost r t], none) := by
  unfold sendMessageToFacebook
  cases ax r t <;> rfl

theorem generateResponseWithGemini_error (gem : GeminiApi) (m : Option Json) (e : JsErr)
    (h : gem (geminiPrompt (jsToStringOpt m)) = .error e) :
    generateResponseWithGemini gem m =
      (geminiApology, [.gemini (geminiPrompt (jsToStringOpt m))]) := by
  unfold generateResponseWithGemini
  rw [h]

theorem processMessage_textEvent (gem : GeminiApi) (ax : AxiosPost) (u p t : String)
    (ht : t ≠ "") :
    processMessage gem ax (textEvent u p t) =
      ((generateResponseWithGemini gem (some (.str t))).2 ++
        [.fbPost (some (.str u)) (.str (generateResponseWithGemini gem (some (.str t))).1)],
       none) := by
  simp [processMessage, textEvent, jsGetField, lookupField, jsTruthy, ht,
    sendMessageToFacebook_spec]

theorem runMessagingEvents_eq_flatMap (gem : GeminiApi) (ax : AxiosPost) (evs : List Json) :
    runMessagingEvents gem ax evs = evs.flatMap fun ev => (processMessage gem ax ev).1 := by
  induction evs with
  | nil => rfl
  | cons e es ih => simp [runMessagingEvents, List.flatMap_cons, ih]

/-- Entries that each carry a messaging array never throw in the entry loop:
the result is every event's calls, in order, whatever each event does. -/
theorem runEntries_pageShape (gem : GeminiApi) (ax : AxiosPost)
    (entriesEvs : List (List Json)) :
    runEntries gem ax (entriesEvs.map fun evs => Json.obj [("messaging", Json.arr evs)]) =
      (entriesEvs.flatMap fun evs => evs.flatMap fun ev => (processMessage gem ax ev).1,
       none) := by
  induction entriesEvs with
  | nil => rfl
  | cons evs rest ih =>
    simp [runEntries, jsGetField, lookupField, jsIterate, ih,
      runMessagingEvents_eq_flatMap, List.flatMap_cons]

/-! ## Claim theorems -/

/-- C7: for every `GET /webhook` request, if the `hub.verify_token` query
parameter equals the configured verify token the response is `200` with the
`hub.challenge` value echoed back verbatim as the body; otherwise `403`. -/
theorem c7_get_webhook_verification (cfg : Config) (gem : GeminiApi) (ax : AxiosPost)
    (qs : List (String × String)) :
    handle cfg gem ax (mkGet qs) =
      .responded
        (if qs.lookup "hub.verify_token" = cfg.FACEBOOK_VERIFY_TOKEN then
          ⟨200, qs.lookup "hub.challenge"⟩
        else ⟨403, some "Invalid verification token"⟩) [] := by
  simp [handle, appStack, processStack, mkGet, getWebhookHandler, queryLookup]

/-- C9: with `FACEBOOK_VERIFY_TOKEN` unset and no `hub.verify_token` query
parameter, the strict comparison `undefined === undefined` succeeds and
`GET /webhook` responds `200` (echoing the challenge) instead of `403`. -/
theorem c9_unset_verify_token :
    handle ⟨none, none, none, none⟩ geminiOk axiosOk (mkGet [("hub.challenge", "CH")]) =
      .responded ⟨200, some "CH"⟩ [] := by
  simp [handle, appStack, processStack, mkGet, getWebhookHandler, queryLookup, List.lookup]

/-- C8: `sendMessageToFacebook` never propagates an error: whatever the
Graph-API call does, the function returns normally having made exactly one
send attempt. -/
theorem c8_delivery_swallows_errors (ax : AxiosPost) (r : Option Json) (t : JsVal) :
    sendMessageToFacebook ax r t = ([.fbPost r t], none) :=
  sendMessageToFacebook_spec ax r t

/-- C10: an event whose message object has no `text` field and which carries
no postback is silently ignored: no error, no generation call, no delivery
call. -/
theorem c10_message_without_text_ignored (gem : GeminiApi) (ax : AxiosPost) (u p : String)
    (ms : List (String × Json)) (htext : lookupField ms "text" = none) :
    processMessage gem ax
      (.obj [("sender", .obj [("id", .str u)]), ("recipient", .obj [("id", .str p)]),
             ("message", .obj ms)]) = ([], none) := by
  simp [processMessage, jsGetField, lookupField, jsTruthy, htext]

/-- Witness for C10 at a concrete event whose message has only a `mid`. -/
theorem c10_witness :
    lookupField [("mid", Json.str "m1")] "text" = none ∧
    processMessage geminiOk axiosOk
      (.obj [("sender", .obj [("id", .str "u1")]), ("recipient", .obj [("id", .str "p1")]),
             ("message", .obj [("mid", .str "m1")])]) = ([], none) :=
  ⟨by decide, c10_message_without_text_ignored geminiOk axiosOk "u1" "p1" _ (by decide)⟩

/-- C6 counterexample: the payload `"toString"` is outside the known set but
does not map to the generic fallback — `responses["toString"]` finds the
inherited `Object.prototype.toString`, which is truthy, so the inherited
function value is delivered instead of the fallback string. -/
theorem c6_counterexample :
    handlePostback axiosOk (some (.str "u1")) (some (.str "toString")) =
      ([.fbPost (some (.str "u1")) (.protoFn "toString")], none) ∧
    "toString" ∉ knownPayloads ∧
    JsVal.protoFn "toString" ≠ JsVal.str postbackFallback := by
  decide

/-- C6 (amended): `"GET_STARTED"` maps to exactly the canned welcome string,
and every payload outside the known set that is not an `Object.prototype`
member name maps to the generic fallback string. -/
theorem c6_amended_postback_resolution (ax : AxiosPost) (sid : Option Json) (p : String)
    (hk : p ∉ knownPayloads) (hp : p ∉ objectProtoProps) :
    handlePostback ax sid (some (.str p)) = ([.fbPost sid (.str postbackFallback)], none) ∧
    handlePostback ax sid (some (.str "GET_STARTED")) =
      ([.fbPost sid (.str "Welcome! 👋 How can I help you today?")], none) := by
  constructor
  · simp only [knownPayloads, List.mem_cons, List.not_mem_nil, or_false, not_or] at hk
    simp [handlePostback, responsesLookup, jsToStringOpt, jsToString, hk.1, hk.2.1, hk.2.2, hp,
      jsValTruthy, sendMessageToFacebook_spec]
  · simp [handlePostback, responsesLookup, jsToStringOpt, jsToString, jsValTruthy,
      sendMessageToFacebook_spec]

/-- Witness for C6 (amended) at a concrete unknown payload. -/
theorem c6_amended_witness :
    "NOT_A_KNOWN_PAYLOAD" ∉ knownPayloads ∧
    "NOT_A_KNOWN_PAYLOAD" ∉ objectProtoProps ∧
    handlePostback axiosOk (some (.str "u1")) (some (.str "NOT_A_KNOWN_PAYLOAD")) =
      ([.fbPost (some (.str "u1")) (.str postbackFallback)], none) ∧
    handlePostback axiosOk (some (.str "u1")) (some (.str "GET_STARTED")) =
      ([.fbPost (some (.str "u1")) (.str "Welcome! 👋 How can I help you today?")], none) := by
  have h := c6_amended_postback_resolution axiosOk (some (.str "u1")) "NOT_A_KNOWN_PAYLOAD"
    (by decide) (by decide)
  exact ⟨by decide, by decide, h.1, h.2⟩

set_option maxRecDepth 40000 in
/-- C3: a verified messaging event whose message carries a quick-reply
payload does **not** take the log-only path: the `if (event.message)` branch
matches first, a reply is generated and delivered, and the quick-reply
payload is never logged (the `else if` at line 119 is unreachable). -/
theorem c3_quick_reply_dead_code :
    processMessage geminiOk axiosOk quickReplyEvent =
      ([.gemini (geminiPrompt "Hi"), .fbPost (some (.str "u1")) (.str "Hello!")], none) ∧
    Call.logQuickReply (some (.str "QR_PAYLOAD")) ∉
      (processMessage geminiOk axiosOk quickReplyEvent).1 := by
  decide

/-- C5: when the Gemini call fails, the reply delivered to the sender is
exactly the fixed apology string, the error never propagates out of
`generateResponseWithGemini`, and a webhook request carrying such an event
still gets `200 OK`. -/
theorem c5_generation_failure_apology (gem : GeminiApi) (ax : AxiosPost) (cfg : Config)
    (u p t raw secret : String) (e : JsErr)
    (hfail : gem (geminiPrompt t) = .error e) (ht : t ≠ "")
    (hsec : cfg.FACEBOOK_APP_SECRET = some secret)
    (hparse : expressJsonParse raw = some (pageBody [[textEvent u p t]])) :
    processMessage gem ax (textEvent u p t) =
      ([.gemini (geminiPrompt t), .fbPost (some (.str u)) (.str geminiApology)], none) ∧
    handle cfg gem ax
        (mkPost raw
          (some (expectedSignature secret (jsonStringify (pageBody [[textEvent u p t]]))))) =
      .responded ⟨200, some "OK"⟩
        [.gemini (geminiPrompt t), .fbPost (some (.str u)) (.str geminiApology)] := by
  have hgen : generateResponseWithGemini gem (some (.str t)) =
      (geminiApology, [.gemini (geminiPrompt t)]) :=
    generateResponseWithGemini_error gem (some (.str t)) e
      (by simpa [jsToStringOpt, jsToString] using hfail)
  have hpm := processMessage_textEvent gem ax u p t ht
  rw [hgen] at hpm
  refine ⟨by simpa using hpm, ?_⟩
  rw [handle_mkPost _ _ _ _ _ _ hparse]
  simp [postWebhookHandler, headerLookup_mkPost, hsec, verifyRequestSignature_self,
    handleVerifiedBody, pageBody, jsGetField, lookupField, jsIterate, runEntries,
    runMessagingEvents, hpm]

set_option maxRecDepth 40000 in
/-- Witness for C5 at a concrete failing Gemini behaviour and request. -/
theorem c5_witness :
    geminiFail (geminiPrompt "Hi") = .error (.typeError "Gemini API error") ∧
    ("Hi" : String) ≠ "" ∧
    sampleConfig.FACEBOOK_APP_SECRET = some sampleSecret ∧
    expressJsonParse rawPageOneText = some (pageBody [[textEvent "u1" "p1" "Hi"]]) ∧
    processMessage geminiFail axiosOk (textEvent "u1" "p1" "Hi") =
      ([.gemini (geminiPrompt "Hi"), .fbPost (some (.str "u1")) (.str geminiApology)], none) ∧
    handle sampleConfig geminiFail axiosOk
        (mkPost rawPageOneText
          (some (expectedSignature sampleSecret
            (jsonStringify (pageBody [[textEvent "u1" "p1" "Hi"]]))))) =
      .responded ⟨200, some "OK"⟩
        [.gemini (geminiPrompt "Hi"), .fbPost (some (.str "u1")) (.str geminiApology)] := by
  have h := c5_generation_failure_apology geminiFail axiosOk sampleConfig "u1" "p1" "Hi"
    rawPageOneText sampleSecret (.typeError "Gemini API error") rfl (by decide) rfl (by decide)
  exact ⟨rfl, by decide, rfl, by decide, h.1, h.2⟩

set_option maxRecDepth 40000 in
/-- C1: the signature check does **not** operate on the raw body bytes.
`req.rawBody` is never set (the capturing middleware sits after the routes),
so the HMAC is computed over `JSON.stringify(req.body)`.  Two raw bodies
that differ in exactly one byte (a space versus a tab at index 5) parse to
the same object, so the same signature header is accepted for both: altering
a byte of the body does not invalidate the signature. -/
theorem c1_hmac_over_reserialized_body :
    handle sampleConfig geminiOk axiosOk
        (mkPost rawBodyA (some (expectedSignature sampleSecret (jsonStringify bodyA)))) =
      .responded ⟨200, some "OK"⟩ [] ∧
    handle sampleConfig geminiOk axiosOk
        (mkPost rawBodyATab (some (expectedSignature sampleSecret (jsonStringify bodyA)))) =
      .responded ⟨200, some "OK"⟩ [] ∧
    utf8Bytes rawBodyA ≠ utf8Bytes rawBodyATab ∧
    (utf8Bytes rawBodyA).length = (utf8Bytes rawBodyATab).length ∧
    ((List.range (utf8Bytes rawBodyA).length).filter fun i =>
      (utf8Bytes rawBodyA).getD i 0 != (utf8Bytes rawBodyATab).getD i 0) = [5] := by
  refine ⟨?_, ?_, by decide, by decide, by decide⟩
  · rw [handle_mkPost _ _ _ _ _ bodyA (by decide)]
    simp [postWebhookHandler, headerLookup_mkPost, sampleConfig, verifyRequestSignature_self,
      handleVerifiedBody, bodyA, jsGetField, lookupField]
  · rw [handle_mkPost _ _ _ _ _ bodyA (by decide)]
    simp [postWebhookHandler, headerLookup_mkPost, sampleConfig, verifyRequestSignature_self,
      handleVerifiedBody, bodyA, jsGetField, lookupField]

set_option maxRecDepth 40000 in
/-- C2 counterexample: a non-matching header value whose length differs from
the expected signature's 71 bytes is **not** rejected with 403 —
`crypto.timingSafeEqual` throws a `RangeError`, the `async` handler rejects,
and no response is written at all. -/
theorem c2_counterexample :
    handle sampleConfig geminiOk axiosOk (mkPost rawBodyA (some "sha256=short")) =
      .noResponse .rangeError [] ∧
    (utf8Bytes "sha256=short").length ≠
      (utf8Bytes (expectedSignature sampleSecret (jsonStringify bodyA))).length := by
  have hlen := utf8Bytes_expectedSignature_length sampleSecret (jsonStringify bodyA)
  constructor
  · rw [handle_mkPost _ _ _ _ _ bodyA (by decide)]
    simp [postWebhookHandler, headerLookup_mkPost, sampleConfig,
      verifyRequestSignature_lengthDiffer sampleSecret "sha256=short" bodyA (by decide)
        (by rw [hlen]; decide)]
  · rw [hlen]; decide

/-- C2 (amended): a missing header and a present-but-different header of the
expected byte length are rejected with 403; the matching header is accepted
and (for a non-page body) answered `200 OK`; but a header whose byte length
differs from the expected signature's makes the comparison throw and the
request receives no response instead of a 403. -/
theorem c2_amended_signature_gate (cfg : Config) (gem : GeminiApi) (ax : AxiosPost)
    (raw secret : String) (body : Json)
    (hsec : cfg.FACEBOOK_APP_SECRET = some secret)
    (hparse : expressJsonParse raw = some body) :
    (handle cfg gem ax (mkPost raw none) = .responded ⟨403, some "Unauthorized"⟩ []) ∧
    (∀ s : String, s ≠ "" →
      (utf8Bytes s).length =
        (utf8Bytes (expectedSignature secret (jsonStringify body))).length →
      utf8Bytes s ≠ utf8Bytes (expectedSignature secret (jsonStringify body)) →
      handle cfg gem ax (mkPost raw (some s)) = .responded ⟨403, some "Unauthorized"⟩ []) ∧
    (∀ s : String, s ≠ "" →
      (utf8Bytes s).length ≠
        (utf8Bytes (expectedSignature secret (jsonStringify body))).length →
      handle cfg gem ax (mkPost raw (some s)) = .noResponse .rangeError []) ∧
    (jsGetField (some body) "object" ≠ .ok (some (.str "page")) →
      handle cfg gem ax
          (mkPost raw (some (expectedSignature secret (jsonStringify body)))) =
        .responded ⟨200, some "OK"⟩ []) := by
  refine ⟨?_, ?_, ?_, ?_⟩
  · rw [handle_mkPost _ _ _ _ _ _ hparse]
    simp [postWebhookHandler, headerLookup_mkPost_none, hsec, verifyRequestSignature_noHeader]
  · intro s hne hl hb
    rw [handle_mkPost _ _ _ _ _ _ hparse]
    simp [postWebhookHandler, headerLookup_mkPost, hsec,
      verifyRequestSignature_mismatch secret s body hne hl hb]
  · intro s hne hl
    rw [handle_mkPost _ _ _ _ _ _ hparse]
    simp [postWebhookHandler, headerLookup_mkPost, hsec,
      verifyRequestSignature_lengthDiffer secret s body hne hl]
  · intro hobj
    rw [handle_mkPost _ _ _ _ _ _ hparse]
    rcases expressJsonParse_shape raw body hparse with ⟨fs, rfl⟩ | ⟨xs, rfl⟩
    · have hne : lookupField fs "object" ≠ some (.str "page") := by
        intro h
        exact hobj (by simp [jsGetField, h])
      simp [postWebhookHandler, headerLookup_mkPost, hsec, verifyRequestSignature_self,
        handleVerifiedBody, jsGetField, hne]
    · simp [postWebhookHandler, headerLookup_mkPost, hsec, verifyRequestSignature_self,
        handleVerifiedBody, jsGetField]

set_option maxRecDepth 40000 in
/-- Witness for C2 (amended): concrete headers for each of the four cases
(absent; flipped first character, same length; wrong length; matching). -/
theorem c2_amended_witness :
    handle sampleConfig geminiOk axiosOk (mkPost rawBodyA none) =
      .responded ⟨403, some "Unauthorized"⟩ [] ∧
    handle sampleConfig geminiOk axiosOk
        (mkPost rawBodyA (some (String.mk ('X' ::
          (expectedSignature sampleSecret (jsonStringify bodyA)).data.tail)))) =
      .responded ⟨403, some "Unauthorized"⟩ [] ∧
    handle sampleConfig geminiOk axiosOk (mkPost rawBodyA (some "sha256=short")) =
      .noResponse .rangeError [] ∧
    handle sampleConfig geminiOk axiosOk
        (mkPost rawBodyA (some (expectedSignature sampleSecret (jsonStringify bodyA)))) =
      .responded ⟨200, some "OK"⟩ [] := by
  obtain ⟨h1, h2, h3, h4⟩ := c2_amended_signature_gate sampleConfig geminiOk axiosOk
    rawBodyA sampleSecret bodyA rfl (by decide)
  obtain ⟨f1, f2, f3⟩ := flippedHeader_facts sampleSecret (jsonStringify bodyA)
  refine ⟨h1, h2 _ f1 f2 f3, h3 "sha256=short" (by decide) ?_,
    h4 (by simp [jsGetField, bodyA, lookupField])⟩
  rw [utf8Bytes_expectedSignature_length]
  decide

set_option maxRecDepth 40000 in
/-- C4 counterexample: a correctly signed `page` request whose single entry
has no `messaging` list does **not** get a 200 — `for...of entry.messaging`
throws outside the per-event `try`, the `async` handler rejects, and the
request receives no response. -/
theorem c4_counterexample :
    handle sampleConfig geminiOk axiosOk
        (mkPost rawPageNoMessaging
          (some (expectedSignature sampleSecret (jsonStringify pageNoMessaging)))) =
      .noResponse (.typeError "is not iterable") [] := by
  rw [handle_mkPost _ _ _ _ _ pageNoMessaging (by decide)]
  simp [postWebhookHandler, headerLookup_mkPost, sampleConfig, verifyRequestSignature_self,
    handleVerifiedBody, pageNoMessaging, jsGetField, lookupField, jsIterate, runEntries]

/-- C4 (amended): on a correctly signed `page` request whose entries each
carry a messaging list, every event is attempted — a throwing event is
caught and logged and contributes only the calls it made, siblings run
regardless — and the response is `200 OK` whatever the per-event outcomes.
(An entry without a messaging list instead throws outside the per-event
`try` and the request gets no response, as the counterexample shows.) -/
theorem c4_amended_per_event_isolation (cfg : Config) (gem : GeminiApi) (ax : AxiosPost)
    (raw secret : String) (entriesEvs : List (List Json))
    (hsec : cfg.FACEBOOK_APP_SECRET = some secret)
    (hparse : expressJsonParse raw = some (pageBody entriesEvs)) :
    handle cfg gem ax
        (mkPost raw
          (some (expectedSignature secret (jsonStringify (pageBody entriesEvs))))) =
      .responded ⟨200, some "OK"⟩
        (entriesEvs.flatMap fun evs => evs.flatMap fun ev => (processMessage gem ax ev).1) := by
  rw [handle_mkPost _ _ _ _ _ _ hparse]
  simp [postWebhookHandler, headerLookup_mkPost, hsec, verifyRequestSignature_self,
    handleVerifiedBody, pageBody, jsGetField, lookupField, jsIterate, runEntries_pageShape]

set_option maxRecDepth 100000 in
/-- Witness for C4 (amended): one entry holding a malformed event (throws on
`event.sender.id`) followed by a well-formed text event; the request is
answered `200 OK` and the sibling event's generation and delivery calls all
happen. -/
theorem c4_amended_witness :
    handle sampleConfig geminiOk axiosOk
        (mkPost rawPageTwoEvents
          (some (expectedSignature sampleSecret
            (jsonStringify (pageBody [[Json.obj [], textEvent "u1" "p1" "Hi"]]))))) =
      .responded ⟨200, some "OK"⟩
        [.gemini (geminiPrompt "Hi"), .fbPost (some (.str "u1")) (.str "Hello!")] := by
  have h := c4_amended_per_event_isolation sampleConfig geminiOk axiosOk rawPageTwoEvents
    sampleSecret [[Json.obj [], textEvent "u1" "p1" "Hi"]] rfl (by decide)
  exact h.trans (by decide)
